import Mathlib

/-!
Shallow embedding of
`jwql/instrument_monitors/miri_monitors/data_trending/plots/plot_functions.py`.

Timestamps and telemetry values (MJD floats in the source) are modelled as
rationals; anomaly ids (a SQL integer column) as integers.  The SQL queries
are modelled as filter-and-sort over in-memory tables; the bokeh rendering
calls and the astropy ISO time formatting are external display code and are
not part of the data pipeline modelled here.
-/

/-- Row of the `miriAnomaly` table: columns `id`, `start_time`, `end_time`,
`plot` (the mnemonic label the anomaly is recorded for). -/
structure AnomalyRecord where
  id : Int
  start_time : ℚ
  end_time : ℚ
  plot : String
deriving DecidableEq

/-- Row of a mnemonic table as read by `add_to_plot`: columns `start_time`,
`average`, `deviation`. -/
structure SampleRow where
  start_time : ℚ
  average : ℚ
  deviation : ℚ
deriving DecidableEq

/-- Row of a wheel-position mnemonic table as read by `add_to_wplot`:
columns `timestamp`, `value`. -/
structure WSampleRow where
  timestamp : ℚ
  value : ℚ
deriving DecidableEq

/-- Insert an element into a list sorted by `key`; helper for modelling SQL
`ORDER BY`. -/
def insertByKey {α : Type} (key : α → ℚ) (a : α) : List α → List α
  | [] => [a]
  | b :: bs => if key a ≤ key b then a :: b :: bs else b :: insertByKey key a bs

/-- Stable insertion sort by `key`, modelling SQL `ORDER BY key`. -/
def sortByKey {α : Type} (key : α → ℚ) : List α → List α
  | [] => []
  | a :: as => insertByKey key a (sortByKey key as)

/-- Model of `SELECT * FROM mnemonic WHERE start_time BETWEEN start AND end
ORDER BY start_time` (plot_functions.py line 148) over an in-memory table;
SQL `BETWEEN` is inclusive at both ends. -/
def sampleQuery (tbl : List SampleRow) (s e : ℚ) : List SampleRow :=
  sortByKey (fun r => r.start_time)
    (tbl.filter fun r => decide (s ≤ r.start_time) && decide (r.start_time ≤ e))

/-- Model of `SELECT * FROM miriAnomaly WHERE plot = 'mnemonic' ORDER BY
start_time` (line 156). -/
def anomalyQuery (tbl : List AnomalyRecord) (mnem : String) : List AnomalyRecord :=
  sortByKey (fun a => a.start_time) (tbl.filter fun a => a.plot == mnem)

/-- Model of `SELECT * FROM mnemonic WHERE timestamp BETWEEN start AND end
ORDER BY timestamp` (line 238). -/
def wsampleQuery (tbl : List WSampleRow) (s e : ℚ) : List WSampleRow :=
  sortByKey (fun r => r.timestamp)
    (tbl.filter fun r => decide (s ≤ r.timestamp) && decide (r.timestamp ≤ e))

/-- Evaluation of `np.poly1d(z)` at `t`: the polynomial whose coefficients
`z` are listed highest degree first (Horner scheme). -/
def polyEval (z : List ℚ) (t : ℚ) : ℚ :=
  z.foldl (fun acc c => acc * t + c) 0

/-- Model of `pol_regression` (plot_functions.py lines 26-44):
`z = np.polyfit(x, y, rank); f = np.poly1d(z); y_poly = f(x)`.
The least-squares coefficient computation inside `np.polyfit` is external
library code (regression math is out of scope per the spec) and is abstracted
as the `lstsq` argument; the documented argument checks of `np.polyfit` are
kept explicit: it raises `TypeError` for an empty `x` and for mismatched
lengths, while a rank-deficient system (fewer points than `rank + 1`) only
emits a `RankWarning` and still returns coefficients. -/
def pol_regression (lstsq : List ℚ → List ℚ → Nat → List ℚ)
    (x y : List ℚ) (rank : Nat) : Except String (List ℚ) :=
  if x.length = 0 then Except.error "expected non-empty vector for x"
  else if x.length ≠ y.length then Except.error "expected x and y to have same length"
  else Except.ok (x.map (polyEval (lstsq x y rank)))

/-- One check of the inner tagging loop (lines 173-175): if the anomaly's
interval contains the timestamp (both bounds inclusive), append
`str(id) + ' '` to the sample's tag string. -/
def tagStep (t : ℚ) (s : String) (a : AnomalyRecord) : String :=
  if a.start_time ≤ t ∧ t ≤ a.end_time then s ++ toString a.id ++ " " else s

/-- The nested tagging scan of `add_to_plot` (lines 164-175): start from one
empty string per sample, then for each anomaly row append its id to every
sample whose timestamp the row's interval contains. -/
def tagLoop (times : List ℚ) (anoms : List AnomalyRecord) : List String :=
  anoms.foldl
    (fun tags a => List.zipWith (fun s t => tagStep t s a) tags times)
    (times.map fun _ => "")

/-- The final `amomaly` column (lines 177-180): tag strings shorter than one
character are replaced by the sentinel `'NaN'`. -/
def list_anomaly_order (times : List ℚ) (anoms : List AnomalyRecord) : List String :=
  (tagLoop times anoms).map fun s => if s.length < 1 then "NaN" else s

/-- Tag of a single sample with timestamp `t`: the per-sample residue of the
nested scan. -/
def sampleTag (anoms : List AnomalyRecord) (t : ℚ) : String :=
  anoms.foldl (tagStep t) ""

/-- Ids of the anomalies whose inclusive interval contains `t`, in scan
order. -/
def tagIds (anoms : List AnomalyRecord) (t : ℚ) : List Int :=
  (anoms.filter fun a => decide (a.start_time ≤ t ∧ t ≤ a.end_time)).map
    fun a => a.id

/-- Concatenation of `str(id) + ' '` over a list of ids. -/
def joinTokens : List Int → String
  | [] => ""
  | n :: ns => toString n ++ " " ++ joinTokens ns

/-- Chart-ready columns that `add_to_plot` hands to `ColumnDataSource`
(lines 147-191): the raw columns, the regression column `reg` and the
anomaly column `amomaly`.  The `strTime` string column and the datetime
conversion of `start_time` are astropy display formatting and are not
modelled. -/
structure PlotData where
  start_time : List ℚ
  average : List ℚ
  deviation : List ℚ
  reg : List ℚ
  amomaly : List String
deriving DecidableEq

/-- Data pipeline of `add_to_plot` (lines 116-191): query the mnemonic table
over the inclusive window, compute the degree-3 regression column (an
exception raised by `np.polyfit` propagates to the caller), query the
anomaly table for the mnemonic, and tag each sample. -/
def add_to_plot (lstsq : List ℚ → List ℚ → Nat → List ℚ)
    (db_samples : List SampleRow) (db_anomalies : List AnomalyRecord)
    (mnemonic : String) (s e : ℚ) : Except String PlotData :=
  let temp := sampleQuery db_samples s e
  let ts := temp.map fun r => r.start_time
  let avg := temp.map fun r => r.average
  match pol_regression lstsq ts avg 3 with
  | Except.error msg => Except.error msg
  | Except.ok reg =>
      Except.ok
        { start_time := ts
          average := avg
          deviation := temp.map fun r => r.deviation
          reg := reg
          amomaly := list_anomaly_order ts (anomalyQuery db_anomalies mnemonic) }

/-- Chart-ready columns that `add_to_wplot` hands to `ColumnDataSource`
(lines 235-280). -/
structure WPlotData where
  timestamp : List ℚ
  value : List ℚ
  amomaly : List String
deriving DecidableEq

/-- Data pipeline of `add_to_wplot` (lines 214-285): query, subtract
`nominal` from the `value` column (line 242), and tag each sample by its
timestamp.  No regression column is computed here. -/
def add_to_wplot (db_w : List WSampleRow) (db_anomalies : List AnomalyRecord)
    (mnemonic : String) (s e nominal : ℚ) : WPlotData :=
  let temp := wsampleQuery db_w s e
  let ts := temp.map fun r => r.timestamp
  { timestamp := ts
    value := (temp.map fun r => r.value).map fun v => v - nominal
    amomaly := list_anomaly_order ts (anomalyQuery db_anomalies mnemonic) }

/-- Example anomaly record of the spec's worked example:
id 1, interval [15, 25]. -/
def exA1 : AnomalyRecord :=
  { id := 1, start_time := 15, end_time := 25, plot := "m" }

/-- Second example anomaly record: id 2, an interval also covering
timestamp 20. -/
def exA2 : AnomalyRecord :=
  { id := 2, start_time := 18, end_time := 30, plot := "m" }

/-- Trivial concrete stand-in for the external least-squares routine, used
to instantiate the `lstsq` parameter at concrete inputs. -/
def lstsq0 : List ℚ → List ℚ → Nat → List ℚ :=
  fun _ _ rank => List.replicate (rank + 1) 0

/-- Zipping a mapped list against the original list acts pointwise. -/
theorem zipWith_map_left_self {α β : Type} (g : β → α → β) (f : α → β) :
    ∀ l : List α, List.zipWith g (l.map f) l = l.map fun t => g (f t) t := by
  intro l
  induction l with
  | nil => rfl
  | cons a as ih => simp [List.zipWith, ih]

/-- Generalized shape of the nested tagging scan: folding the anomaly rows
over a pointwise-built tag list stays pointwise. -/
theorem tagLoop_aux (anoms : List AnomalyRecord) :
    ∀ (times : List ℚ) (f : ℚ → String),
      anoms.foldl (fun tags a => List.zipWith (fun s t => tagStep t s a) tags times)
          (times.map f)
        = times.map fun t => anoms.foldl (tagStep t) (f t) := by
  induction anoms with
  | nil => intro times f; rfl
  | cons a as ih =>
      intro times f
      rw [List.foldl_cons,
        zipWith_map_left_self (fun s t => tagStep t s a) f times]
      refine (ih times fun t => tagStep t (f t) a).trans ?_
      apply List.map_congr_left
      intro t _
      rw [List.foldl_cons]

/-- The nested scan computes, per sample, the per-sample tag fold. -/
theorem tagLoop_eq_map (times : List ℚ) (anoms : List AnomalyRecord) :
    tagLoop times anoms = times.map (sampleTag anoms) :=
  tagLoop_aux anoms times fun _ => ""

/-- Folding the tag step from an arbitrary prefix appends the scan-order
concatenation of the matching ids. -/
theorem foldl_tagStep_eq (t : ℚ) :
    ∀ (anoms : List AnomalyRecord) (s : String),
      anoms.foldl (tagStep t) s = s ++ joinTokens (tagIds anoms t) := by
  intro anoms
  induction anoms with
  | nil => intro s; simp [tagIds, joinTokens]
  | cons a as ih =>
      intro s
      rw [List.foldl_cons, ih (tagStep t s a)]
      by_cases h : a.start_time ≤ t ∧ t ≤ a.end_time
      · simp [tagStep, h, tagIds, joinTokens, List.filter_cons, String.append_assoc]
      · simp [tagStep, h, tagIds, List.filter_cons]

/-- The tag of one sample is the scan-order concatenation of
`str(id) + ' '` over the anomalies containing its timestamp. -/
theorem sampleTag_eq_joinTokens (anoms : List AnomalyRecord) (t : ℚ) :
    sampleTag anoms t = joinTokens (tagIds anoms t) := by
  have h := foldl_tagStep_eq t anoms ""
  simpa [sampleTag] using h

/-- A string of length zero is the empty string. -/
theorem string_eq_empty_of_length (s : String) (h : s.length = 0) : s = "" := by
  cases s with
  | mk l =>
      have hl : l = [] := List.length_eq_zero.mp h
      rw [hl]

/-- The token concatenation is empty exactly for the empty id list. -/
theorem joinTokens_eq_empty_iff (ids : List Int) : joinTokens ids = "" ↔ ids = [] := by
  cases ids with
  | nil => simp [joinTokens]
  | cons n ns =>
      constructor
      · intro h
        exfalso
        have hl := congrArg String.length h
        rw [joinTokens, String.length_append, String.length_append] at hl
        have h1 : (" " : String).length = 1 := rfl
        have h0 : ("" : String).length = 0 := rfl
        rw [h1, h0] at hl
        omega
      · intro h; exact absurd h (by simp)

/-- A nonempty token concatenation contains a space character. -/
theorem space_mem_joinTokens (n : Int) (ns : List Int) :
    ' ' ∈ (joinTokens (n :: ns)).data := by
  have h : (joinTokens (n :: ns)).data
      = (toString n).data ++ ' ' :: (joinTokens ns).data := by
    have h2 : (" " : String).data = [' '] := rfl
    rw [joinTokens, String.data_append, String.data_append, h2]
    simp
  rw [h]
  simp

/-- No token concatenation equals the sentinel string `'NaN'`. -/
theorem joinTokens_ne_NaN (ids : List Int) : joinTokens ids ≠ "NaN" := by
  cases ids with
  | nil => intro h; exact absurd h (by decide)
  | cons n ns =>
      intro h
      have hs := space_mem_joinTokens n ns
      rw [h] at hs
      exact absurd hs (by decide)

/-- The id list of anomalies containing `t` is empty exactly when no anomaly
interval contains `t`. -/
theorem tagIds_eq_nil_iff (anoms : List AnomalyRecord) (t : ℚ) :
    tagIds anoms t = [] ↔
      ∀ a ∈ anoms, ¬(a.start_time ≤ t ∧ t ≤ a.end_time) := by
  simp [tagIds, List.map_eq_nil_iff, List.filter_eq_nil_iff]

/-- The sentinel substitution of lines 177-180 applied to one sample's tag
yields `'NaN'` exactly when no anomaly interval contains the timestamp. -/
theorem final_tag_eq_NaN_iff (anoms : List AnomalyRecord) (t : ℚ) :
    (if (sampleTag anoms t).length < 1 then "NaN" else sampleTag anoms t) = "NaN"
      ↔ ∀ a ∈ anoms, ¬(a.start_time ≤ t ∧ t ≤ a.end_time) := by
  rw [sampleTag_eq_joinTokens]
  by_cases h : (joinTokens (tagIds anoms t)).length < 1
  · have hempty : joinTokens (tagIds anoms t) = "" :=
      string_eq_empty_of_length _ (by omega)
    have hnil : tagIds anoms t = [] := (joinTokens_eq_empty_iff _).mp hempty
    rw [if_pos h]
    exact ⟨fun _ => (tagIds_eq_nil_iff anoms t).mp hnil, fun _ => rfl⟩
  · rw [if_neg h]
    constructor
    · intro hh; exact absurd hh (joinTokens_ne_NaN _)
    · intro hall
      exfalso
      apply h
      rw [(tagIds_eq_nil_iff anoms t).mpr hall]
      decide

/-- The `amomaly` column is the pointwise sentinel substitution of the
per-sample tags. -/
theorem list_anomaly_order_eq_map (times : List ℚ) (anoms : List AnomalyRecord) :
    list_anomaly_order times anoms
      = times.map fun t =>
          if (sampleTag anoms t).length < 1 then "NaN" else sampleTag anoms t := by
  rw [list_anomaly_order, tagLoop_eq_map, List.map_map]
  rfl

/-- Reading a mapped list with a default at an in-bounds index. -/
theorem getD_map_of_lt {α β : Type} (f : α → β) (d : β) (l : List α) (i : Nat)
    (hi : i < l.length) : (l.map f).getD i d = f (l.get ⟨i, hi⟩) := by
  have h2 : i < (l.map f).length := by simpa using hi
  rw [List.getD_eq_getElem _ _ h2, List.getElem_map]
  simp

/-- Membership after sorted insertion. -/
theorem mem_insertByKey {α : Type} (key : α → ℚ) (a x : α) (l : List α) :
    x ∈ insertByKey key a l ↔ x = a ∨ x ∈ l := by
  induction l with
  | nil => simp [insertByKey]
  | cons b bs ih =>
      rw [insertByKey]
      split
      · simp
      · simp [ih]
        tauto

/-- Sorting by key preserves membership. -/
theorem mem_sortByKey {α : Type} (key : α → ℚ) (x : α) (l : List α) :
    x ∈ sortByKey key l ↔ x ∈ l := by
  induction l with
  | nil => simp [sortByKey]
  | cons b bs ih => simp [sortByKey, mem_insertByKey, ih]

/-- The anomaly query returns exactly the rows labeled for the mnemonic. -/
theorem mem_anomalyQuery (tbl : List AnomalyRecord) (mnem : String)
    (J : AnomalyRecord) :
    J ∈ anomalyQuery tbl mnem ↔ J ∈ tbl ∧ J.plot = mnem := by
  simp [anomalyQuery, mem_sortByKey, List.mem_filter]

/-- Under pairwise-distinct ids, an anomaly's id is collected for a
timestamp exactly when its interval contains it. -/
theorem mem_tagIds_iff (anoms : List AnomalyRecord) (t : ℚ) (I : AnomalyRecord)
    (hI : I ∈ anoms) (hids : (anoms.map fun a => a.id).Nodup) :
    I.id ∈ tagIds anoms t ↔ (I.start_time ≤ t ∧ t ≤ I.end_time) := by
  constructor
  · intro h
    simp only [tagIds, List.mem_map, List.mem_filter, decide_eq_true_eq] at h
    obtain ⟨J, ⟨hJmem, hJcov⟩, hJid⟩ := h
    have hEq : J = I := List.inj_on_of_nodup_map hids hJmem hI hJid
    rw [← hEq]
    exact hJcov
  · intro h
    simp only [tagIds, List.mem_map, List.mem_filter, decide_eq_true_eq]
    exact ⟨I, ⟨hI, h⟩, rfl⟩

/-- C1: over the anomalies returned for the queried mnemonic (the
`WHERE plot = mnemonic` query), with pairwise-distinct anomaly ids, a
sample's tag string is the concatenation of `str(id) + ' '` over the ids of
the anomalies containing its timestamp, and anomaly `I`'s id is collected
for the sample iff `I.start_time <= timestamp <= I.end_time` (both bounds
inclusive); the query returns exactly the rows labeled for the mnemonic. -/
theorem tag_contains_id_iff_interval_contains (table : List AnomalyRecord)
    (mnem : String) (times : List ℚ) (i : Nat) (hi : i < times.length)
    (I : AnomalyRecord) (hI : I ∈ anomalyQuery table mnem)
    (hids : ((anomalyQuery table mnem).map fun a => a.id).Nodup) :
    ((tagLoop times (anomalyQuery table mnem)).getD i ""
        = joinTokens (tagIds (anomalyQuery table mnem) (times.get ⟨i, hi⟩)))
    ∧ (I.id ∈ tagIds (anomalyQuery table mnem) (times.get ⟨i, hi⟩)
        ↔ (I.start_time ≤ times.get ⟨i, hi⟩ ∧ times.get ⟨i, hi⟩ ≤ I.end_time))
    ∧ (∀ J : AnomalyRecord,
        J ∈ anomalyQuery table mnem ↔ (J ∈ table ∧ J.plot = mnem)) := by
  refine ⟨?_, ?_, ?_⟩
  · rw [tagLoop_eq_map, getD_map_of_lt _ _ times i hi, sampleTag_eq_joinTokens]
  · exact mem_tagIds_iff _ _ I hI hids
  · intro J
    exact mem_anomalyQuery table mnem J

/-- Witness for C1 at samples {10, 20, 30}, one anomaly {id 1, [15, 25]}
labeled for mnemonic `'m'`, sample index 1. -/
theorem tag_contains_id_iff_interval_contains_witness :
    ((tagLoop [(10 : ℚ), 20, 30] (anomalyQuery [exA1] "m")).getD 1 ""
        = joinTokens (tagIds (anomalyQuery [exA1] "m")
            (([(10 : ℚ), 20, 30]).get ⟨1, by decide⟩)))
    ∧ (exA1.id ∈ tagIds (anomalyQuery [exA1] "m")
          (([(10 : ℚ), 20, 30]).get ⟨1, by decide⟩)
        ↔ (exA1.start_time ≤ ([(10 : ℚ), 20, 30]).get ⟨1, by decide⟩ ∧
            ([(10 : ℚ), 20, 30]).get ⟨1, by decide⟩ ≤ exA1.end_time))
    ∧ (∀ J : AnomalyRecord,
        J ∈ anomalyQuery [exA1] "m" ↔ (J ∈ [exA1] ∧ J.plot = "m")) :=
  tag_contains_id_iff_interval_contains [exA1] "m" [(10 : ℚ), 20, 30] 1
    (by decide) exA1 (by decide) (by decide)

/-- C2: a sample's entry in the `amomaly` column equals the fixed sentinel
(the string `'NaN'`, lines 177-180) iff its timestamp lies inside zero
anomaly intervals; for an empty anomaly list the right-hand side is vacuous,
so every sample receives the sentinel. -/
theorem tag_sentinel_iff_no_overlap (times : List ℚ) (anoms : List AnomalyRecord)
    (i : Nat) (hi : i < times.length) :
    (list_anomaly_order times anoms).getD i "" = "NaN"
      ↔ ∀ a ∈ anoms,
          ¬(a.start_time ≤ times.get ⟨i, hi⟩ ∧ times.get ⟨i, hi⟩ ≤ a.end_time) := by
  rw [list_anomaly_order_eq_map, getD_map_of_lt _ _ times i hi]
  exact final_tag_eq_NaN_iff anoms (times.get ⟨i, hi⟩)

/-- Witness for C2: sample at timestamp 10 is outside the single anomaly's
interval [15, 25] and receives the sentinel. -/
theorem tag_sentinel_iff_no_overlap_witness :
    (list_anomaly_order [(10 : ℚ), 20, 30] [exA1]).getD 0 "" = "NaN"
      ↔ ∀ a ∈ [exA1],
          ¬(a.start_time ≤ ([(10 : ℚ), 20, 30]).get ⟨0, by decide⟩ ∧
            ([(10 : ℚ), 20, 30]).get ⟨0, by decide⟩ ≤ a.end_time) :=
  tag_sentinel_iff_no_overlap [(10 : ℚ), 20, 30] [exA1] 0 (by decide)

/-- C3 counterexample: with an empty mnemonic table the data query returns
zero rows, and `add_to_plot` propagates the `np.polyfit` error for an empty
vector instead of completing with an empty series. -/
theorem empty_query_raises_counterexample :
    sampleQuery [] 0 1 = []
    ∧ add_to_plot lstsq0 [] [] "m" 0 1
        = Except.error "expected non-empty vector for x" :=
  ⟨rfl, rfl⟩

/-- C3 amended: whenever the data query returns zero rows, `add_to_plot`
fails with the polynomial-fit error on the empty column (np.polyfit rejects
an empty vector) rather than completing with an empty series. -/
theorem empty_query_propagates_polyfit_error
    (lstsq : List ℚ → List ℚ → Nat → List ℚ) (db_samples : List SampleRow)
    (db_anomalies : List AnomalyRecord) (mnem : String) (s e : ℚ)
    (h : sampleQuery db_samples s e = []) :
    add_to_plot lstsq db_samples db_anomalies mnem s e
      = Except.error "expected non-empty vector for x" := by
  simp [add_to_plot, h, pol_regression]

/-- Witness for C3 amended at the empty database. -/
theorem empty_query_propagates_polyfit_error_witness :
    add_to_plot lstsq0 [] [] "mnem" 0 1
      = Except.error "expected non-empty vector for x" :=
  empty_query_propagates_polyfit_error lstsq0 [] [] "mnem" 0 1 rfl

/-- C4 counterexample: the degenerate input of 2 points with degree 3
(fewer points than degree+1) does not surface an error: the regression
returns a value list (numpy emits only a `RankWarning` for the
rank-deficient system). -/
theorem underdetermined_fit_counterexample :
    List.length [(1 : ℚ), 2] < 3 + 1
    ∧ (pol_regression lstsq0 [(1 : ℚ), 2] [(1 : ℚ), 2] 3).isOk = true := by
  decide

/-- C4 amended: the regression surfaces an error only for an empty input
vector; with at least one point, even fewer than degree+1, it silently
returns fitted values (numpy emits a RankWarning, which is not an error). -/
theorem pol_regression_degenerate_no_error :
    (∀ (lstsq : List ℚ → List ℚ → Nat → List ℚ) (y : List ℚ) (rank : Nat),
        pol_regression lstsq [] y rank
          = Except.error "expected non-empty vector for x")
    ∧ (∀ (lstsq : List ℚ → List ℚ → Nat → List ℚ) (x y : List ℚ) (rank : Nat),
        x ≠ [] → x.length = y.length →
          (pol_regression lstsq x y rank).isOk = true) := by
  constructor
  · intro lstsq y rank
    rfl
  · intro lstsq x y rank hx hxy
    rw [pol_regression, if_neg fun h => hx (List.length_eq_zero.mp h),
      if_neg fun h => h hxy]
    rfl

/-- Witness for C4 amended: 2 points, degree 3, no error surfaced. -/
theorem pol_regression_degenerate_no_error_witness :
    (pol_regression lstsq0 [(1 : ℚ), 2] [(3 : ℚ), 4] 3).isOk = true :=
  pol_regression_degenerate_no_error.2 lstsq0 [(1 : ℚ), 2] [(3 : ℚ), 4] 3
    (by decide) rfl

/-- C5 counterexample: on samples {10, 20, 30} and anomaly {id 1, [15, 25]}
the code produces the tag strings `['', '1 ', '']` (each appended id carries
a trailing space) and the displayed values `['NaN', '1 ', 'NaN']`, so
neither the claimed tags `['', '1', '']` nor the claimed display
`['no anomaly', '1', 'no anomaly']` is produced. -/
theorem example_tags_counterexample :
    tagLoop [(10 : ℚ), 20, 30] [exA1] ≠ ["", "1", ""]
    ∧ list_anomaly_order [(10 : ℚ), 20, 30] [exA1]
        ≠ ["no anomaly", "1", "no anomaly"] := by
  decide

/-- C5 amended: for samples at timestamps {10, 20, 30} and one anomaly
{id 1, [15, 25]}, tagging produces the tag strings `['', '1 ', '']` and the
displayed values are `['NaN', '1 ', 'NaN']`: the sentinel is the string
`'NaN'` and each appended id carries a trailing space. -/
theorem example_tags_actual :
    tagLoop [(10 : ℚ), 20, 30] [exA1] = ["", "1 ", ""]
    ∧ list_anomaly_order [(10 : ℚ), 20, 30] [exA1] = ["NaN", "1 ", "NaN"] := by
  decide

/-- C6 counterexample: two anomalies with ids 1 and 2 both covering
timestamp 20 yield the tag string `'1 2 '` (trailing space), not `'1 2'`. -/
theorem double_anomaly_tag_counterexample :
    (tagLoop [(20 : ℚ)] [exA1, exA2]).getD 0 "" ≠ "1 2"
    ∧ tagLoop [(20 : ℚ)] [exA1, exA2] = ["1 2 "] := by
  decide

/-- C6 amended: for every sample the matching ids accumulate in interval
scan order, each appended as `str(id) + ' '`, so the tag is the
concatenation of the matching ids each followed by a space; in particular
ids 1 and 2 both covering timestamp 20 yield `'1 2 '`. -/
theorem tag_accumulates_ids_in_scan_order :
    (∀ (times : List ℚ) (anoms : List AnomalyRecord) (i : Nat)
        (hi : i < times.length),
        (tagLoop times anoms).getD i ""
          = joinTokens (tagIds anoms (times.get ⟨i, hi⟩)))
    ∧ tagLoop [(20 : ℚ)] [exA1, exA2] = ["1 2 "] := by
  constructor
  · intro times anoms i hi
    rw [tagLoop_eq_map, getD_map_of_lt _ _ times i hi, sampleTag_eq_joinTokens]
  · decide

/-- Witness for C6 amended at a single sample covered by one anomaly. -/
theorem tag_accumulates_ids_in_scan_order_witness :
    (tagLoop [(20 : ℚ)] [exA1, exA2]).getD 0 ""
      = joinTokens (tagIds [exA1, exA2] (([(20 : ℚ)]).get ⟨0, by decide⟩)) :=
  tag_accumulates_ids_in_scan_order.1 [(20 : ℚ)] [exA1, exA2] 0 (by decide)

/-- C7 counterexample: the pair (x, y) = ([], []) has equal lengths, yet the
regression raises the empty-vector error instead of returning fitted
values. -/
theorem regression_empty_pair_counterexample :
    List.length ([] : List ℚ) = List.length ([] : List ℚ)
    ∧ (pol_regression lstsq0 [] [] 3).isOk = false := by
  decide

/-- C7 amended: for every NONEMPTY pair of equal-length sequences and every
degree, the regression returns the fitted values at the same x-coordinates,
of the same length as the input; in particular a degree-3 fit of at least 4
points (nonempty) returns values, not an error. -/
theorem pol_regression_length_preserved
    (lstsq : List ℚ → List ℚ → Nat → List ℚ) (x y : List ℚ) (rank : Nat)
    (hx : x ≠ []) (hxy : x.length = y.length) :
    ∃ l, pol_regression lstsq x y rank = Except.ok l ∧ l.length = x.length := by
  refine ⟨x.map (polyEval (lstsq x y rank)), ?_, by simp⟩
  rw [pol_regression, if_neg fun h => hx (List.length_eq_zero.mp h),
    if_neg fun h => h hxy]

/-- Witness for C7 amended: a degree-3 fit of 4 distinct points returns a
value list of length 4. -/
theorem pol_regression_length_preserved_witness :
    ∃ l, pol_regression lstsq0 [(0 : ℚ), 1, 2, 3] [(5 : ℚ), 6, 7, 8] 3
          = Except.ok l
      ∧ l.length = List.length [(0 : ℚ), 1, 2, 3] :=
  pol_regression_length_preserved lstsq0 [(0 : ℚ), 1, 2, 3] [(5 : ℚ), 6, 7, 8] 3
    (by decide) rfl

/-- C9: tagging produces exactly one tag string per sample (the `amomaly`
column has the same length as the sample list), and an empty sample list
yields an empty tag list regardless of the anomaly list. -/
theorem tag_list_length_invariant :
    (∀ (times : List ℚ) (anoms : List AnomalyRecord),
        (list_anomaly_order times anoms).length = times.length)
    ∧ (∀ anoms : List AnomalyRecord, list_anomaly_order [] anoms = []) := by
  constructor
  · intro times anoms
    rw [list_anomaly_order_eq_map, List.length_map]
  · intro anoms
    simp [list_anomaly_order_eq_map]

/-- C10: in `add_to_wplot` the `nominal` argument is subtracted from every
fetched sample value, so every plotted y-value equals the stored value minus
`nominal`. -/
theorem wplot_value_normalized (db_w : List WSampleRow)
    (db_anomalies : List AnomalyRecord) (mnem : String) (s e nominal : ℚ) :
    (add_to_wplot db_w db_anomalies mnem s e nominal).value
      = (wsampleQuery db_w s e).map fun r => r.value - nominal := by
  simp [add_to_wplot, List.map_map, Function.comp]
